import Mathlib

/-!
Verification development for the `templ generate` command
(`src/cmd/templ/generatecmd/main.go`).

The Go source is shallowly embedded as pure Lean functions:

* string helpers mirror the `strings`/`path` operations used by the source
  (paths here are ASCII slash-separated strings, as on the Unix targets the
  tool runs on);
* the filesystem seen by one scan is an immutable snapshot tree
  (`FSEntry`/`FSList`), and `filepath.WalkDir` together with the walk
  callback of `processChanges` becomes a recursive function threading an
  accumulator (`WalkAcc`);
* goroutine side effects that the walk performs (per-file compilation,
  `os.Remove` outcomes, context cancellation) are supplied as oracle fields
  of `ScanConfig`, so a single scan is the deterministic function
  `processChangesModel`;
* the `runCmd` loop becomes a fold (`runLoop`) over the per-scan summaries
  that `processChanges` returns, recording its observable actions as
  `LoopEvent`s;
* the worker-pool semaphore/wait-group discipline of `processChanges` is a
  small-step transition system (`PoolStep`) over per-task phases, so that
  concurrency bounds are statements about all reachable interleavings;
* `checkTemplVersion` is embedded per manifest (`checkManifest`); the
  external `golang.org/x/mod/semver` comparison is modelled on release
  versions (`major.minor.patch`) as lexicographic comparison.
-/

set_option autoImplicit false

namespace TemplGen

/-! ### String helpers (mirroring `strings` and `path` usage in the source) -/

/-- Leading-segment test on character lists: `charsLead t s` is true when
`t` is an initial segment of `s`. -/
def charsLead : List Char → List Char → Bool
  | [], _ => true
  | _ :: _, [] => false
  | a :: as, b :: bs => a == b && charsLead as bs

/-- Embedding of Go `strings.HasPrefix s t`. -/
def strStarts (s t : String) : Bool := charsLead t.toList s.toList

/-- Embedding of Go `strings.HasSuffix s t`. -/
def strEnds (s t : String) : Bool := charsLead t.toList.reverse s.toList.reverse

/-- Embedding of Go `strings.TrimSuffix s t`. -/
def strTrimSuffix (s t : String) : String :=
  if strEnds s t then String.mk (s.toList.take (s.toList.length - t.toList.length)) else s

/-- Embedding of the `name` component of Go `path.Split p`: everything after
the final slash. -/
def baseNameOf (p : String) : String :=
  String.mk ((p.toList.reverse.takeWhile (fun c => c ≠ '/')).reverse)

/-! ### Go error values -/

/-- Go error values as far as this layer distinguishes them: the sentinel
`context.Canceled` (recognised by `errors.Is`) versus any other error,
carried as its message. `fmt.Errorf` with `%v` produces a fresh `msg`
error, so wrapping-sensitive claims are decided on the constructor. -/
inductive GoError where
  | canceled : GoError
  | msg (s : String) : GoError
deriving DecidableEq, Repr

/-! ### Version gate (`checkTemplVersion`) -/

/-- Release semantic version `vMAJOR.MINOR.PATCH`, the shape `go.mod`
`require` lines carry for this dependency. -/
structure SemVer where
  major : Nat
  minor : Nat
  patch : Nat
deriving DecidableEq, Repr

/-- Comparison of release versions: lexicographic on
(major, minor, patch).  This is the external `semver.Compare` of
`golang.org/x/mod` restricted to canonical release versions (the library
additionally handles pre-release tags, which no claim exercises). -/
def semverCompare (a b : SemVer) : Ordering :=
  match compare a.major b.major with
  | .lt => .lt
  | .gt => .gt
  | .eq =>
    match compare a.minor b.minor with
    | .lt => .lt
    | .gt => .gt
    | .eq => compare a.patch b.patch

/-- The tool's own module path, compared against by `checkTemplVersion`. -/
def templModulePath : String := "github.com/a-h/templ"

/-- One `require` line of a parsed `go.mod` file. -/
structure ModRequire where
  path : String
  version : SemVer
deriving DecidableEq, Repr

/-- A parsed `go.mod` manifest: its own module path and its requirements. -/
structure ModFile where
  modulePath : String
  require : List ModRequire
deriving DecidableEq, Repr

/-- Outcome classes of the version gate, keyed to the two error messages of
`checkTemplVersion`:
* `failUpgradeLibrary` is the `cmp < 0` branch
  ("generator ... is newer than templ version ... found in go.mod file,
  consider running `go get -u github.com/a-h/templ` to upgrade");
* `failUpgradeCLI` is the `cmp > 0` branch
  ("generator ... is older than templ version ... found in go.mod file,
  consider upgrading templ CLI"). -/
inductive GateOutcome where
  | pass : GateOutcome
  | failUpgradeLibrary : GateOutcome
  | failUpgradeCLI : GateOutcome
deriving DecidableEq, Repr

/-- First `require` entry for the tool's own module path, as the
`for _, r := range mf.Require` loop finds it. -/
def findTemplRequire (rs : List ModRequire) : Option SemVer :=
  (rs.find? (fun r => r.path = templModulePath)).map (fun r => r.version)

/-- Per-manifest body of `checkTemplVersion`, entered once the upward
`go.mod` search has found a manifest.  `running` is `templ.Version()`.
Returns `none` when the manifest neither is templ itself nor requires it:
in the source that case falls off the `require` loop and the enclosing
`for` re-reads the same `go.mod` without moving up, so no verdict is
produced. -/
def checkManifest (running : SemVer) (mf : ModFile) : Option GateOutcome :=
  if mf.modulePath = templModulePath then
    some .pass
  else
    match findTemplRequire mf.require with
    | none => none
    | some v =>
      match semverCompare v running with
      | .lt => some .failUpgradeLibrary
      | .gt => some .failUpgradeCLI
      | .eq => some .pass

/-! ### Filesystem snapshot and directory walk (`processChanges`) -/

mutual
/-- A node of the filesystem snapshot one scan sees.  Nodes store the full
walk path (`filepath.WalkDir` hands the callback root-joined paths) and,
for regular files, the modification time as an abstract tick count. -/
inductive FSEntry where
  | file (path : String) (modTime : Nat) : FSEntry
  | dir (path : String) (children : FSList) : FSEntry

/-- Children of a directory, in the (lexical) order `WalkDir` visits them. -/
inductive FSList where
  | nil : FSList
  | cons (e : FSEntry) (rest : FSList) : FSList
end

mutual
/-- Does the snapshot contain a regular file with this exact path?
Embeds the `os.Stat` existence check of the orphan branch. -/
def existsInE : FSEntry → String → Bool
  | .file p _, q => p == q
  | .dir _ cs, q => existsInL cs q

/-- List version of `existsInE`. -/
def existsInL : FSList → String → Bool
  | .nil, _ => false
  | .cons e rest, q => existsInE e q || existsInL rest q
end

/-- Embedding of `shouldSkipDir` (main.go:198).  Note that the
`vendor`/`node_modules` comparison is against the whole walked path, while
the dot/underscore check is against the base name split off by
`path.Split`. -/
def shouldSkipDir (dir : String) : Bool :=
  if dir == "." then false
  else if dir == "vendor" || dir == "node_modules" then true
  else
    let name := baseNameOf dir
    strStarts name "." || strStarts name "_"

/-- Oracles for the side effects one scan performs, plus the
`KeepOrphanedFiles` flag threaded into `processChanges`:

* `compileResult p` is the error (if any) that the worker goroutine's
  `processSingleFile` call for `p` appends to `errs`;
* `removeFails p` says whether `os.Remove p` fails for an orphan;
* `cancelAt = some n` makes `ctx.Err()` non-nil from the `n`-th walk
  callback invocation on (counting from 0), `none` means the context is
  never cancelled during the scan. -/
structure ScanConfig where
  keepOrphanedFiles : Bool
  compileResult : String → Option GoError
  removeFails : String → Bool
  cancelAt : Option Nat

/-- Is `ctx.Err()` non-nil at callback invocation number `c`? -/
def cancelHit (cfg : ScanConfig) (c : Nat) : Bool :=
  match cfg.cancelAt with
  | some n => n ≤ c
  | none => false

/-- Accumulated observable state of one `processChanges` walk:

* `watch` is `fileNameToLastModTime` (total map, absent entries read as the
  Go zero time `0`);
* `counter` numbers callback invocations (for the cancellation oracle);
* `changes` is `changesFound`; `errs` collects worker errors in dispatch
  order (the walk-abort error is appended by `processChangesModel`);
* `deleted`/`warnings` record orphan removals and the warning logged for
  each; `scanned` records every regular file whose callback ran;
  `compiled` records files handed to a worker; `templSeen` records every
  `.templ` file the callback reached, with its modification time;
* `aborted` carries the error that stopped the walk, if any. -/
structure WalkAcc where
  watch : String → Nat
  counter : Nat
  changes : Nat
  errs : List GoError
  deleted : List String
  warnings : List String
  scanned : List String
  compiled : List String
  templSeen : List (String × Nat)
  aborted : Option GoError

/-- Body of the walk callback for a regular file (main.go:230-264), after
the `ctx.Err()` and `IsDir` checks.  `fs` is the whole snapshot, used for
the sibling `os.Stat` of the orphan branch. -/
def visitFile (cfg : ScanConfig) (fs : FSEntry) (p : String) (m : Nat) (a : WalkAcc) : WalkAcc :=
  let a := { a with scanned := a.scanned ++ [p] }
  if !cfg.keepOrphanedFiles && strEnds p "_templ.go" then
    if existsInE fs (strTrimSuffix p "_templ.go" ++ ".templ") then a
    else if cfg.removeFails p then
      { a with aborted := some (.msg "failed to remove file") }
    else
      { a with deleted := a.deleted ++ [p], warnings := a.warnings ++ [p] }
  else if strEnds p ".templ" then
    let a := { a with templSeen := a.templSeen ++ [(p, m)] }
    if a.watch p < m then
      let a := { a with
        watch := fun q => if q = p then m else a.watch q
        changes := a.changes + 1
        compiled := a.compiled ++ [p] }
      match cfg.compileResult p with
      | some e => { a with errs := a.errs ++ [e] }
      | none => a
    else a
  else a

mutual
/-- One `filepath.WalkDir` visit of a node: the callback first checks
`ctx.Err()`, then handles directory skipping, then delegates regular files
to `visitFile`.  A callback error (cancellation, failed removal) aborts the
remaining walk, which the `aborted` short-circuit realises. -/
def walkE (cfg : ScanConfig) (fs : FSEntry) : FSEntry → WalkAcc → WalkAcc
  | e, a =>
    if a.aborted.isSome then a
    else
      let c := a.counter
      let a := { a with counter := c + 1 }
      if cancelHit cfg c then { a with aborted := some .canceled }
      else
        match e with
        | .file p m => visitFile cfg fs p m a
        | .dir p cs => if shouldSkipDir p then a else walkL cfg fs cs a

/-- Walk of a child list, left to right. -/
def walkL (cfg : ScanConfig) (fs : FSEntry) : FSList → WalkAcc → WalkAcc
  | .nil, a => a
  | .cons e rest, a => walkL cfg fs rest (walkE cfg fs e a)
end

/-- Fresh accumulator at scan start: `fileNameToLastModTime` is the map
carried over from previous scans, everything else empty. -/
def initAcc (w : String → Nat) : WalkAcc :=
  { watch := w, counter := 0, changes := 0, errs := [], deleted := [],
    warnings := [], scanned := [], compiled := [], templSeen := [], aborted := none }

/-- One whole `processChanges` call: walk the snapshot from the root, then
append the walk-abort error (if any) to the collected errors, as
`errs = append(errs, err)` does after `WalkDir` returns. -/
def processChangesModel (cfg : ScanConfig) (fs : FSEntry) (w : String → Nat) : WalkAcc :=
  let a := walkE cfg fs fs (initAcc w)
  match a.aborted with
  | some e => { a with errs := a.errs ++ [e] }
  | none => a

/-! ### Backoff scheduler and the `runCmd` loop -/

/-- Modelled from the spec: the run loop's scheduler is the external
`cenkalti/backoff/v4` `ExponentialBackOff`, absent from `src/`; §4.5 of the
spec describes it as exponential backoff with initial interval 500 ms,
interval cap 3 s and no elapsed-time ceiling, reset on activity.  The state
is the current interval in milliseconds; intervals grow by the library's
default multiplier 1.5 (here `* 3 / 2` on Nat) up to the cap.  The spec
describes no randomization, so none is modelled. -/
structure BackOff where
  currentInterval : Nat
  initialInterval : Nat
  maxInterval : Nat
deriving DecidableEq, Repr

/-- Modelled from the spec: `NextBackOff` returns the current interval as
the delay to sleep and advances the state, capping at `maxInterval`. -/
def BackOff.nextBackOff (b : BackOff) : Nat × BackOff :=
  (b.currentInterval,
    { b with currentInterval := min (b.currentInterval * 3 / 2) b.maxInterval })

/-- Modelled from the spec: `Reset` restores the initial interval. -/
def BackOff.reset (b : BackOff) : BackOff :=
  { b with currentInterval := b.initialInterval }

/-- The scheduler as `runCmd` configures it (main.go:132-135):
`InitialInterval` 500 ms, `MaxInterval` 3 s, `MaxElapsedTime` 0. -/
def initialBackOff : BackOff := { currentInterval := 500, initialInterval := 500, maxInterval := 3000 }

/-- What one `processChanges` call hands back to the loop:
`changesFound` and the collected errors, in order. -/
structure ScanSummary where
  changesFound : Nat
  errs : List GoError
deriving DecidableEq, Repr

/-- Observable actions of one `runCmd` loop iteration, in program order:
running the post-build command, sending the reload SSE, starting the proxy
listener goroutine, starting the browser-open goroutine, and sleeping for a
backoff delay. -/
inductive LoopEvent where
  | runCommand : LoopEvent
  | sseReload : LoopEvent
  | proxyStart : LoopEvent
  | openURL : LoopEvent
  | slept (ms : Nat) : LoopEvent
deriving DecidableEq, Repr

/-- Loop-carried state of `runCmd`: the `firstRunComplete` flag, the
scheduler state, the trace of events so far, and how many scans ran. -/
structure LoopState where
  firstRunComplete : Bool
  bo : BackOff
  events : List LoopEvent
  scansRun : Nat
deriving DecidableEq, Repr

/-- Static configuration of the loop (`args.Watch`, whether `args.Proxy`
is non-empty so `p != nil`, and whether `args.Command` is non-empty). -/
structure LoopConfig where
  watch : Bool
  proxyConfigured : Bool
  commandSet : Bool
deriving DecidableEq, Repr

/-- Loop state at `runCmd` entry. -/
def initLoopState : LoopState :=
  { firstRunComplete := false, bo := initialBackOff, events := [], scansRun := 0 }

/-- Events the changed-files block of one iteration emits, in program
order (main.go:150-181): run the post-build command, send the reload SSE,
and, when this is still the first run and a proxy is configured, start the
proxy listener and browser-open goroutines. -/
def changedEvents (cfg : LoopConfig) (s : LoopState) (scan : ScanSummary) : List LoopEvent :=
  if 0 < scan.changesFound then
    (if cfg.commandSet then [.runCommand] else []) ++
      (if cfg.proxyConfigured then [.sseReload] else []) ++
      (if !s.firstRunComplete && cfg.proxyConfigured then [.proxyStart, .openURL] else [])
  else []

/-- One iteration of the `runCmd` loop body (main.go:140-193), given the
summary the scan produced.  Returns the new state and `some r` when the
iteration makes `runCmd` return with result `r` (`none` inside meaning a
nil error), or `none` to continue looping. -/
def loopIter (cfg : LoopConfig) (s : LoopState) (scan : ScanSummary) :
    LoopState × Option (Option GoError) :=
  let s := { s with scansRun := s.scansRun + 1 }
  match scan.errs with
  | e :: _ =>
    if e = .canceled then (s, some (some .canceled))
    else if !cfg.watch then (s, some (some (.msg "failed to process path")))
    else loopTail cfg s scan
  | [] => loopTail cfg s scan
where
  /-- Rest of the body once the error checks did not return: the
  changed-files block, then (except on the very first iteration) the
  backoff reset and sleep, then `firstRunComplete := true`. -/
  loopTail (cfg : LoopConfig) (s : LoopState) (scan : ScanSummary) :
      LoopState × Option (Option GoError) :=
    if s.firstRunComplete then
      let bo := if 0 < scan.changesFound then s.bo.reset else s.bo
      ({ s with
          events := s.events ++ changedEvents cfg s scan ++ [.slept bo.nextBackOff.1],
          bo := bo.nextBackOff.2,
          firstRunComplete := true }, none)
    else
      ({ s with
          events := s.events ++ changedEvents cfg s scan,
          firstRunComplete := true }, none)

/-- The `for !firstRunComplete || args.Watch` loop, driven by the list of
summaries successive scans produce.  Result `some r` is `runCmd`
returning `r`; `none` means the supplied summaries ran out while the loop
would keep watching. -/
def runLoop (cfg : LoopConfig) : List ScanSummary → LoopState → LoopState × Option (Option GoError)
  | scans, s =>
    if !s.firstRunComplete || cfg.watch then
      match scans with
      | [] => (s, none)
      | sc :: rest =>
        match loopIter cfg s sc with
        | (s1, some r) => (s1, some r)
        | (s1, none) => runLoop cfg rest s1
    else (s, some none)

/-- Whole `runCmd` run from the initial state. -/
def runCmdModel (cfg : LoopConfig) (scans : List ScanSummary) :
    LoopState × Option (Option GoError) :=
  runLoop cfg scans initLoopState

/-- The `Run` wrapper (main.go:84-88): a `context.Canceled` error from
`runCmd` is converted to a nil error; anything else passes through. -/
def runModel (cfg : LoopConfig) (scans : List ScanSummary) :
    LoopState × Option (Option GoError) :=
  let r := runCmdModel cfg scans
  (r.1, match r.2 with
    | some (some .canceled) => some none
    | x => x)

/-! ### Single-file pipeline (`generate` and `generateSourceMapVisualisation`) -/

/-- A non-fatal parser finding (message plus source position). -/
structure Diagnostic where
  message : String
  line : Nat
  col : Nat
deriving DecidableEq, Repr

/-- Contents of the writable filesystem the pipeline touches, as an
association list from path to contents (later writes shadow earlier
ones). -/
def FileMap := List (String × String)

/-- Write (create or replace) a file. -/
def fmWrite (m : FileMap) (p c : String) : FileMap := (p, c) :: m

/-- Does a file exist in the map? -/
def fmHas (m : FileMap) (p : String) : Bool := m.any (fun x => x.1 == p)

/-- Outcomes of the external calls and filesystem operations one
`generate` run performs, supplied as oracles:

* `parseResult`: `parser.Parse` — success carries the diagnostics of the
  parsed template;
* `generateResult`: `generator.Generate` — success carries the generated
  source text;
* `formatResult`: `format.Source` on that text;
* `writeOk`: whether `os.WriteFile` of the artifact succeeds;
* `visReadTempl`/`visReadGo`: the two concurrent `os.ReadFile` calls of
  `generateSourceMapVisualisation` (they hit the live disk, which may have
  changed since the write, so they are independent oracles);
* `visCreateOk`: whether `os.Create` of the visualisation file succeeds;
* `visRenderResult`: the `visualize.HTML(...).Render` call. -/
structure PipelineEnv where
  parseResult : Except GoError (List Diagnostic)
  generateResult : Except GoError String
  formatResult : Except GoError String
  writeOk : Bool
  visReadTempl : Except GoError String
  visReadGo : Except GoError String
  visCreateOk : Bool
  visRenderResult : Option GoError

/-- Embedding of `generateSourceMapVisualisation` (main.go:361-395).
Returns the updated filesystem and the error result.  The two read-backs
are joined first; note the source's `goErr` branch returns `templErr`,
which is necessarily nil at that point because the branch above already
returned on a non-nil `templErr`. -/
def visualisationModel (ctxDone : Bool) (templName : String) (env : PipelineEnv)
    (fs : FileMap) : FileMap × Option GoError :=
  if ctxDone then (fs, some .canceled)
  else
    match env.visReadTempl with
    | .error te => (fs, some te)
    | .ok _ =>
      match env.visReadGo with
      | .error _ => (fs, none)
      | .ok _ =>
        let target := strTrimSuffix templName ".templ" ++ "_templ_sourcemap.html"
        if !env.visCreateOk then
          (fs, some (.msg (templName ++ " sourcemap visualisation error")))
        else
          let fs := fmWrite fs target "visualisation"
          (fs, env.visRenderResult)

/-- Embedding of `generate` (main.go:323-359): parse, generate, format,
write the artifact, then optionally produce the sourcemap visualisation.
Returns the updated filesystem and either a terminal error or the
diagnostics of a successful run. -/
def generateModel (ctxDone : Bool) (fileName : String) (vis : Bool) (env : PipelineEnv)
    (fs : FileMap) : FileMap × Except GoError (List Diagnostic) :=
  if ctxDone then (fs, .error .canceled)
  else
    match env.parseResult with
    | .error _ => (fs, .error (.msg (fileName ++ " parsing error")))
    | .ok diags =>
      match env.generateResult with
      | .error _ => (fs, .error (.msg (fileName ++ " generation error")))
      | .ok _ =>
        match env.formatResult with
        | .error _ => (fs, .error (.msg (fileName ++ " source formatting error")))
        | .ok data =>
          let target := strTrimSuffix fileName ".templ" ++ "_templ.go"
          if !env.writeOk then
            (fs, .error (.msg (target ++ " write file error")))
          else
            let fs := fmWrite fs target data
            if vis then
              let r := visualisationModel ctxDone fileName env fs
              (r.1, match r.2 with
                | some e => .error e
                | none => .ok diags)
            else (fs, .ok diags)

/-! ### Worker pool (semaphore plus wait group in `processChanges`) -/

/-- Lifecycle phases of one per-file compilation task:
`pending` — the traversal has not reached its dispatch yet;
`acquired` — the traversal executed `sem <- struct{}{}` and `wg.Add(1)`
and spawned the goroutine, which has not entered `processSingleFile` yet;
`running` — `processSingleFile` is executing;
`done` — `processSingleFile` returned (the compilation finished);
`released` — the goroutine executed `<-sem` and its deferred `wg.Done()`
ran. -/
inductive Phase where
  | pending : Phase
  | acquired : Phase
  | running : Phase
  | done : Phase
  | released : Phase
deriving DecidableEq, Repr

/-- State of one scan's pool: the phase of each of the `n` change-file
tasks, whether the traversal has finished dispatching, and whether
`wg.Wait()` has returned (the scan completed). -/
structure PoolState where
  phases : List Phase
  walkFinished : Bool
  scanComplete : Bool
deriving DecidableEq, Repr

/-- Pool state at scan start: `n` tasks not yet dispatched. -/
def PoolState.init (n : Nat) : PoolState :=
  { phases := List.replicate n .pending, walkFinished := false, scanComplete := false }

/-- Does a task in this phase hold a semaphore token?  Every task that
acquired and has not yet released holds exactly one. -/
def holdsToken (p : Phase) : Bool :=
  !(p == Phase.pending) && !(p == Phase.released)

/-- Is a task in this phase an executing compilation? -/
def isRunning (p : Phase) : Bool := p == Phase.running

/-- Number of semaphore tokens currently held. -/
def semCount (s : PoolState) : Nat := s.phases.countP holdsToken

/-- Number of compilations executing right now. -/
def runningCount (s : PoolState) : Nat := s.phases.countP isRunning

/-- Interleaving semantics of the semaphore/wait-group discipline with
capacity `W` (`sem := make(chan struct{}, maxWorkerCount)`):

* `dispatch` — the traversal sends on `sem`; it blocks unless fewer than
  `W` tokens are held, and the traversal only dispatches while it is still
  walking;
* `start`/`finish` — a spawned goroutine enters and leaves
  `processSingleFile`;
* `release` — the goroutine receives from `sem` and its deferred
  `wg.Done()` runs;
* `endWalk` — `WalkDir` returns, no further dispatches;
* `complete` — `wg.Wait()` returns: possible only when every dispatched
  task has released (its `wg.Done` ran). -/
inductive PoolStep (W : Nat) : PoolState → PoolState → Prop where
  | dispatch (s : PoolState) (i : Nat) :
      s.walkFinished = false → s.scanComplete = false →
      s.phases.get? i = some .pending → semCount s < W →
      PoolStep W s { s with phases := s.phases.set i .acquired }
  | start (s : PoolState) (i : Nat) :
      s.phases.get? i = some .acquired →
      PoolStep W s { s with phases := s.phases.set i .running }
  | finish (s : PoolState) (i : Nat) :
      s.phases.get? i = some .running →
      PoolStep W s { s with phases := s.phases.set i .done }
  | release (s : PoolState) (i : Nat) :
      s.phases.get? i = some .done →
      PoolStep W s { s with phases := s.phases.set i .released }
  | endWalk (s : PoolState) :
      PoolStep W s { s with walkFinished := true }
  | complete (s : PoolState) :
      s.walkFinished = true →
      (∀ p ∈ s.phases, p = Phase.pending ∨ p = Phase.released) →
      PoolStep W s { s with scanComplete := true }

/-- States reachable from the start of a scan with `n` change files under
capacity `W`, along any interleaving. -/
inductive PoolReachable (W n : Nat) : PoolState → Prop where
  | init : PoolReachable W n (PoolState.init n)
  | step {s t : PoolState} : PoolReachable W n s → PoolStep W s t → PoolReachable W n t


/-! ### Derived predicates and concrete inputs used by the development -/

def orphanDeletable (cfg : ScanConfig) (fs : FSEntry) (q : String) : Bool :=
  !cfg.keepOrphanedFiles && strEnds q "_templ.go" &&
    !existsInE fs (strTrimSuffix q "_templ.go" ++ ".templ") && !cfg.removeFails q

def orphanAborts (cfg : ScanConfig) (fs : FSEntry) (q : String) : Bool :=
  !cfg.keepOrphanedFiles && strEnds q "_templ.go" &&
    !existsInE fs (strTrimSuffix q "_templ.go" ++ ".templ") && cfg.removeFails q

def templUpdates (cfg : ScanConfig) (p : String) (m : Nat) (a : WalkAcc) : Bool :=
  !(!cfg.keepOrphanedFiles && strEnds p "_templ.go") && strEnds p ".templ" &&
    decide (a.watch p < m)

/-- Walk invariant tying deletions to scanned orphans. -/
def scanInv (cfg : ScanConfig) (fs : FSEntry) (a : WalkAcc) : Prop :=
  (∀ q, q ∈ a.deleted ↔ (q ∈ a.scanned ∧ orphanDeletable cfg fs q = true)) ∧
  a.warnings = a.deleted

/-- Bool condition under which a first loop iteration on summary `sc`
starts the proxy listener and browser-open goroutines: a proxy is
configured, the scan found changes, and the error checks did not already
return from `runCmd`. -/
def fireCondHead (cfg : LoopConfig) (sc : ScanSummary) : Bool :=
  cfg.proxyConfigured && decide (0 < sc.changesFound) &&
    (match sc.errs with
     | [] => true
     | e :: _ => !(decide (e = GoError.canceled)) && cfg.watch)

/-- The same condition on a whole run: only the first scan can fire. -/
def fireCond (cfg : LoopConfig) (scans : List ScanSummary) : Bool :=
  match scans with
  | [] => false
  | sc :: _ => fireCondHead cfg sc

/-- Well-formedness of the scheduler state as `runCmd` configures it. -/
def BackOffWF (b : BackOff) : Prop :=
  b.initialInterval = 500 ∧ b.maxInterval = 3000 ∧
    500 ≤ b.currentInterval ∧ b.currentInterval ≤ 3000

/-- The invariant the pool preserves: never more than `W` semaphore tokens
held, and a completed scan has every dispatched task released. -/
def poolInv (W : Nat) (s : PoolState) : Prop :=
  semCount s ≤ W ∧
    (s.scanComplete = true → s.walkFinished = true ∧
      ∀ p ∈ s.phases, p = Phase.pending ∨ p = Phase.released)

/-! #### Concrete example inputs -/

def exampleVendorTree : FSEntry :=
  .dir "/app" (.cons (.dir "/app/vendor" (.cons (.file "/app/vendor/a.templ" 1) .nil))
    (.cons (.dir "/app/_skip" (.cons (.file "/app/_skip/b.templ" 1) .nil)) .nil))

def examplePlainScan : ScanConfig :=
  { keepOrphanedFiles := false, compileResult := fun _ => none,
    removeFails := fun _ => false, cancelAt := none }

def exampleCancelTree : FSEntry :=
  .dir "/app" (.cons (.file "/app/a.templ" 1) (.cons (.file "/app/b.templ" 1) .nil))

def exampleCancelScan : ScanConfig :=
  { keepOrphanedFiles := false,
    compileResult := fun p => if p = "/app/a.templ" then some (.msg "/app/a.templ parsing error") else none,
    removeFails := fun _ => false, cancelAt := some 2 }

def exampleGoReadFails : PipelineEnv :=
  { parseResult := .ok [], generateResult := .ok "package main",
    formatResult := .ok "package main\n", writeOk := true,
    visReadTempl := .ok "templ contents", visReadGo := .error (.msg "open: no such file"),
    visCreateOk := true, visRenderResult := none }

def exampleTemplReadFails : PipelineEnv :=
  { parseResult := .ok [], generateResult := .ok "package main",
    formatResult := .ok "package main\n", writeOk := true,
    visReadTempl := .error (.msg "open templ: no such file"), visReadGo := .ok "go contents",
    visCreateOk := true, visRenderResult := none }


/-! ### Proof development -/

set_option maxHeartbeats 1600000



theorem visitFile_counter (cfg : ScanConfig) (fs : FSEntry) (p : String) (m : Nat)
    (a : WalkAcc) : (visitFile cfg fs p m a).counter = a.counter := by
  unfold visitFile
  repeat' split
  all_goals try simp_all
  all_goals repeat' split
  all_goals simp_all

theorem visitFile_scanned (cfg : ScanConfig) (fs : FSEntry) (p : String) (m : Nat)
    (a : WalkAcc) : (visitFile cfg fs p m a).scanned = a.scanned ++ [p] := by
  unfold visitFile
  repeat' split
  all_goals try simp_all
  all_goals repeat' split
  all_goals simp_all

theorem visitFile_deleted (cfg : ScanConfig) (fs : FSEntry) (p : String) (m : Nat)
    (a : WalkAcc) :
    (visitFile cfg fs p m a).deleted =
      (if orphanDeletable cfg fs p then a.deleted ++ [p] else a.deleted) := by
  unfold visitFile orphanDeletable
  repeat' split
  all_goals try simp_all
  all_goals repeat' split
  all_goals simp_all

theorem visitFile_warnings (cfg : ScanConfig) (fs : FSEntry) (p : String) (m : Nat)
    (a : WalkAcc) :
    (visitFile cfg fs p m a).warnings =
      (if orphanDeletable cfg fs p then a.warnings ++ [p] else a.warnings) := by
  unfold visitFile orphanDeletable
  repeat' split
  all_goals try simp_all
  all_goals repeat' split
  all_goals simp_all

theorem visitFile_aborted (cfg : ScanConfig) (fs : FSEntry) (p : String) (m : Nat)
    (a : WalkAcc) :
    (visitFile cfg fs p m a).aborted =
      (if orphanAborts cfg fs p then some (.msg "failed to remove file") else a.aborted) := by
  unfold visitFile orphanAborts
  repeat' split
  all_goals try simp_all
  all_goals repeat' split
  all_goals simp_all

theorem visitFile_errs (cfg : ScanConfig) (fs : FSEntry) (p : String) (m : Nat)
    (a : WalkAcc) :
    (visitFile cfg fs p m a).errs =
      (if (!cfg.keepOrphanedFiles && strEnds p "_templ.go") = false ∧
          strEnds p ".templ" = true ∧ a.watch p < m then
        match cfg.compileResult p with
        | some e => a.errs ++ [e]
        | none => a.errs
      else a.errs) := by
  unfold visitFile
  repeat' split
  all_goals try simp_all
  all_goals repeat' split
  all_goals try simp_all
  all_goals omega

theorem visitFile_watch (cfg : ScanConfig) (fs : FSEntry) (p : String) (m : Nat)
    (a : WalkAcc) :
    (visitFile cfg fs p m a).watch =
      (if templUpdates cfg p m a then (fun q => if q = p then m else a.watch q)
       else a.watch) := by
  unfold visitFile templUpdates
  repeat' split
  all_goals try simp_all
  all_goals repeat' split
  all_goals try simp_all
  all_goals cases hk : cfg.keepOrphanedFiles
  all_goals simp_all
  all_goals omega

theorem visitFile_changes (cfg : ScanConfig) (fs : FSEntry) (p : String) (m : Nat)
    (a : WalkAcc) :
    (visitFile cfg fs p m a).changes =
      (if templUpdates cfg p m a then a.changes + 1 else a.changes) := by
  unfold visitFile templUpdates
  repeat' split
  all_goals try simp_all
  all_goals repeat' split
  all_goals try simp_all
  all_goals cases hk : cfg.keepOrphanedFiles
  all_goals simp_all
  all_goals omega

theorem visitFile_compiled (cfg : ScanConfig) (fs : FSEntry) (p : String) (m : Nat)
    (a : WalkAcc) :
    (visitFile cfg fs p m a).compiled =
      (if templUpdates cfg p m a then a.compiled ++ [p] else a.compiled) := by
  unfold visitFile templUpdates
  repeat' split
  all_goals try simp_all
  all_goals repeat' split
  all_goals try simp_all
  all_goals cases hk : cfg.keepOrphanedFiles
  all_goals simp_all
  all_goals omega

theorem visitFile_templSeen (cfg : ScanConfig) (fs : FSEntry) (p : String) (m : Nat)
    (a : WalkAcc) :
    (visitFile cfg fs p m a).templSeen =
      (if (!cfg.keepOrphanedFiles && strEnds p "_templ.go") = false ∧
          strEnds p ".templ" = true then a.templSeen ++ [(p, m)] else a.templSeen) := by
  unfold visitFile
  repeat' split
  all_goals try simp_all
  all_goals repeat' split
  all_goals try simp_all

theorem visitFile_watch_mono (cfg : ScanConfig) (fs : FSEntry) (p : String) (m : Nat)
    (a : WalkAcc) (f : String) : a.watch f ≤ (visitFile cfg fs p m a).watch f := by
  rw [visitFile_watch]
  split
  · by_cases hfp : f = p
    · subst hfp
      rename_i ht
      unfold templUpdates at ht
      simp only [Bool.and_eq_true, decide_eq_true_eq] at ht
      simp
      omega
    · simp [hfp]
  · exact Nat.le_refl _

mutual
theorem walkE_watch_mono (cfg : ScanConfig) (fs : FSEntry) (e : FSEntry) (a : WalkAcc)
    (f : String) : a.watch f ≤ (walkE cfg fs e a).watch f := by
  cases e with
  | file p m =>
    rw [walkE]
    dsimp only
    split
    · exact Nat.le_refl _
    · split
      · exact Nat.le_refl _
      · simpa using visitFile_watch_mono cfg fs p m
          { a with counter := a.counter + 1 } f
  | dir p cs =>
    rw [walkE]
    dsimp only
    split
    · exact Nat.le_refl _
    · split
      · exact Nat.le_refl _
      · split
        · exact Nat.le_refl _
        · simpa using walkL_watch_mono cfg fs cs
            { a with counter := a.counter + 1 } f

theorem walkL_watch_mono (cfg : ScanConfig) (fs : FSEntry) (l : FSList) (a : WalkAcc)
    (f : String) : a.watch f ≤ (walkL cfg fs l a).watch f := by
  cases l with
  | nil => rw [walkL]
  | cons e rest =>
    rw [walkL]
    exact Nat.le_trans (walkE_watch_mono cfg fs e a f) (walkL_watch_mono cfg fs rest _ f)
end

theorem templUpdates_false_of_ge (cfg : ScanConfig) (p : String) (m : Nat) (b : WalkAcc)
    (h : m ≤ b.watch p) : templUpdates cfg p m b = false := by
  unfold templUpdates
  simp only [Bool.and_eq_false_iff, decide_eq_false_iff_not, Nat.not_lt]
  right
  exact h

theorem visitFile_state_id (cfg : ScanConfig) (fs : FSEntry) (p : String) (m : Nat)
    (b : WalkAcc) (h : templUpdates cfg p m b = false) :
    (visitFile cfg fs p m b).changes = b.changes ∧
    (visitFile cfg fs p m b).compiled = b.compiled ∧
    (visitFile cfg fs p m b).watch = b.watch := by
  rw [visitFile_changes, visitFile_compiled, visitFile_watch]
  simp [h]

theorem visitFile_watch_self (cfg : ScanConfig) (fs : FSEntry) (p : String) (m : Nat)
    (a : WalkAcc) :
    m ≤ (visitFile cfg fs p m a).watch p ∨
      (∀ x : WalkAcc, templUpdates cfg p m x = false) := by
  by_cases hs : (!(!cfg.keepOrphanedFiles && strEnds p "_templ.go") && strEnds p ".templ") = true
  · left
    rw [visitFile_watch]
    by_cases hu : templUpdates cfg p m a = true
    · simp [hu]
    · rw [if_neg hu]
      unfold templUpdates at hu
      simp only [hs, Bool.true_and, decide_eq_true_eq] at hu
      omega
  · right
    intro x
    unfold templUpdates
    rw [Bool.and_eq_false_iff]
    left
    simp only [Bool.not_eq_true] at hs
    exact hs

theorem visitFile_idem (cfg : ScanConfig) (fs : FSEntry) (p : String) (m : Nat)
    (a b : WalkAcc) (hcntr : b.counter = a.counter) (hab : b.aborted = a.aborted)
    (hw : ∀ f, (visitFile cfg fs p m a).watch f ≤ b.watch f) :
    (visitFile cfg fs p m b).changes = b.changes ∧
    (visitFile cfg fs p m b).compiled = b.compiled ∧
    (visitFile cfg fs p m b).watch = b.watch ∧
    (visitFile cfg fs p m b).counter = (visitFile cfg fs p m a).counter ∧
    (visitFile cfg fs p m b).aborted = (visitFile cfg fs p m a).aborted := by
  have hid : templUpdates cfg p m b = false := by
    rcases visitFile_watch_self cfg fs p m a with h | h
    · exact templUpdates_false_of_ge cfg p m b (Nat.le_trans h (hw p))
    · exact h b
  have hstate := visitFile_state_id cfg fs p m b hid
  refine ⟨hstate.1, hstate.2.1, hstate.2.2, ?_, ?_⟩
  · rw [visitFile_counter, visitFile_counter]
    exact hcntr
  · rw [visitFile_aborted, visitFile_aborted, hab]

mutual
theorem walkE_idem (cfg : ScanConfig) (fs : FSEntry) (e : FSEntry) (a b : WalkAcc)
    (hc : b.counter = a.counter) (hab : b.aborted = a.aborted)
    (hw : ∀ f, (walkE cfg fs e a).watch f ≤ b.watch f) :
    (walkE cfg fs e b).changes = b.changes ∧
    (walkE cfg fs e b).compiled = b.compiled ∧
    (walkE cfg fs e b).watch = b.watch ∧
    (walkE cfg fs e b).counter = (walkE cfg fs e a).counter ∧
    (walkE cfg fs e b).aborted = (walkE cfg fs e a).aborted := by
  by_cases habort : a.aborted.isSome
  · have hb : b.aborted.isSome := by rw [hab]; exact habort
    rw [walkE, walkE, if_pos habort, if_pos hb]
    exact ⟨rfl, rfl, rfl, hc, hab⟩
  · have hb : ¬b.aborted.isSome := by rw [hab]; exact habort
    cases e with
    | file p m =>
      rw [walkE, walkE, if_neg habort, if_neg hb]
      dsimp only
      rw [hc]
      by_cases hcan : cancelHit cfg a.counter
      · rw [if_pos hcan, if_pos hcan]
        exact ⟨rfl, rfl, rfl, by simp [hc], by simp [hab]⟩
      · rw [if_neg hcan, if_neg hcan]
        have hw2 : ∀ f, (visitFile cfg fs p m { a with counter := a.counter + 1 }).watch f ≤
            ({ b with counter := a.counter + 1 } : WalkAcc).watch f := by
          intro f
          have := hw f
          rw [walkE, if_neg habort] at this
          dsimp only at this
          rw [if_neg hcan] at this
          exact this
        exact visitFile_idem cfg fs p m { a with counter := a.counter + 1 }
          { b with counter := a.counter + 1 } rfl hab hw2
    | dir p cs =>
      rw [walkE, walkE, if_neg habort, if_neg hb]
      dsimp only
      rw [hc]
      by_cases hcan : cancelHit cfg a.counter
      · rw [if_pos hcan, if_pos hcan]
        exact ⟨rfl, rfl, rfl, by simp [hc], by simp [hab]⟩
      · rw [if_neg hcan, if_neg hcan]
        by_cases hskip : shouldSkipDir p
        · rw [if_pos hskip, if_pos hskip]
          exact ⟨rfl, rfl, rfl, by simp [hc], by simp [hab]⟩
        · rw [if_neg hskip, if_neg hskip]
          have hw2 : ∀ f, (walkL cfg fs cs { a with counter := a.counter + 1 }).watch f ≤
              ({ b with counter := a.counter + 1 } : WalkAcc).watch f := by
            intro f
            have := hw f
            rw [walkE, if_neg habort] at this
            dsimp only at this
            rw [if_neg hcan, if_neg hskip] at this
            exact this
          exact walkL_idem cfg fs cs { a with counter := a.counter + 1 }
            { b with counter := a.counter + 1 } rfl hab hw2

theorem walkL_idem (cfg : ScanConfig) (fs : FSEntry) (l : FSList) (a b : WalkAcc)
    (hc : b.counter = a.counter) (hab : b.aborted = a.aborted)
    (hw : ∀ f, (walkL cfg fs l a).watch f ≤ b.watch f) :
    (walkL cfg fs l b).changes = b.changes ∧
    (walkL cfg fs l b).compiled = b.compiled ∧
    (walkL cfg fs l b).watch = b.watch ∧
    (walkL cfg fs l b).counter = (walkL cfg fs l a).counter ∧
    (walkL cfg fs l b).aborted = (walkL cfg fs l a).aborted := by
  cases l with
  | nil =>
    rw [walkL, walkL]
    exact ⟨rfl, rfl, rfl, hc, hab⟩
  | cons e rest =>
    rw [walkL, walkL]
    have hwl : ∀ f, (walkL cfg fs (.cons e rest) a).watch f ≤ b.watch f := hw
    have hw0 : ∀ f, (walkL cfg fs rest (walkE cfg fs e a)).watch f ≤ b.watch f := by
      intro f
      have := hw f
      rw [walkL] at this
      exact this
    have hw1 : ∀ f, (walkE cfg fs e a).watch f ≤ b.watch f := fun f =>
      Nat.le_trans (walkL_watch_mono cfg fs rest (walkE cfg fs e a) f) (hw0 f)
    have h1 := walkE_idem cfg fs e a b hc hab hw1
    have hw2 : ∀ f, (walkL cfg fs rest (walkE cfg fs e a)).watch f ≤
        (walkE cfg fs e b).watch f := by
      intro f
      rw [h1.2.2.1]
      exact hw0 f
    have h2 := walkL_idem cfg fs rest (walkE cfg fs e a) (walkE cfg fs e b)
      h1.2.2.2.1 h1.2.2.2.2 hw2
    refine ⟨?_, ?_, ?_, h2.2.2.2.1, h2.2.2.2.2⟩
    · rw [h2.1, h1.1]
    · rw [h2.2.1, h1.2.1]
    · rw [h2.2.2.1, h1.2.2.1]
end

theorem processChanges_fields (cfg : ScanConfig) (fs : FSEntry) (w : String → Nat) :
    (processChangesModel cfg fs w).changes = (walkE cfg fs fs (initAcc w)).changes ∧
    (processChangesModel cfg fs w).compiled = (walkE cfg fs fs (initAcc w)).compiled ∧
    (processChangesModel cfg fs w).watch = (walkE cfg fs fs (initAcc w)).watch ∧
    (processChangesModel cfg fs w).deleted = (walkE cfg fs fs (initAcc w)).deleted ∧
    (processChangesModel cfg fs w).warnings = (walkE cfg fs fs (initAcc w)).warnings ∧
    (processChangesModel cfg fs w).scanned = (walkE cfg fs fs (initAcc w)).scanned ∧
    (processChangesModel cfg fs w).aborted = (walkE cfg fs fs (initAcc w)).aborted := by
  unfold processChangesModel
  dsimp only
  split
  all_goals simp_all

theorem scan_idem (cfg : ScanConfig) (fs : FSEntry) (w : String → Nat) :
    (processChangesModel cfg fs (processChangesModel cfg fs w).watch).changes = 0 ∧
    (processChangesModel cfg fs (processChangesModel cfg fs w).watch).compiled = [] ∧
    (processChangesModel cfg fs (processChangesModel cfg fs w).watch).watch =
      (processChangesModel cfg fs w).watch := by
  have hfw := processChanges_fields cfg fs w
  have h := walkE_idem cfg fs fs (initAcc w)
    (initAcc (processChangesModel cfg fs w).watch) rfl rfl
    (fun f => Nat.le_of_eq (congrFun hfw.2.2.1.symm f))
  have hfw2 := processChanges_fields cfg fs (processChangesModel cfg fs w).watch
  refine ⟨?_, ?_, ?_⟩
  · rw [hfw2.1, h.1]
    rfl
  · rw [hfw2.2.1, h.2.1]
    rfl
  · rw [hfw2.2.2.1, h.2.2.1]
    rfl

theorem scan_watch_mono (cfg : ScanConfig) (fs : FSEntry) (w : String → Nat) (f : String) :
    w f ≤ (processChangesModel cfg fs w).watch f := by
  rw [(processChanges_fields cfg fs w).2.2.1]
  exact walkE_watch_mono cfg fs fs (initAcc w) f

theorem visitFile_inv (cfg : ScanConfig) (fs : FSEntry) (p : String) (m : Nat)
    (a : WalkAcc) (h : scanInv cfg fs a) : scanInv cfg fs (visitFile cfg fs p m a) := by
  constructor
  · intro q
    rw [visitFile_deleted, visitFile_scanned]
    by_cases hd : orphanDeletable cfg fs p = true
    · rw [if_pos hd]
      simp only [List.mem_append, List.mem_singleton, h.1 q]
      constructor
      · rintro (⟨hs, hq⟩ | rfl)
        · exact ⟨Or.inl hs, hq⟩
        · exact ⟨Or.inr rfl, hd⟩
      · rintro ⟨hs | rfl, hq⟩
        · exact Or.inl ⟨hs, hq⟩
        · exact Or.inr rfl
    · rw [if_neg hd]
      simp only [List.mem_append, List.mem_singleton, h.1 q]
      constructor
      · rintro ⟨hs, hq⟩
        exact ⟨Or.inl hs, hq⟩
      · rintro ⟨hs | rfl, hq⟩
        · exact ⟨hs, hq⟩
        · exact absurd hq hd
  · rw [visitFile_warnings, visitFile_deleted, h.2]

mutual
theorem walkE_inv (cfg : ScanConfig) (fs : FSEntry) (e : FSEntry) (a : WalkAcc)
    (h : scanInv cfg fs a) : scanInv cfg fs (walkE cfg fs e a) := by
  cases e with
  | file p m =>
    rw [walkE]
    dsimp only
    split
    · exact h
    · split
      · exact ⟨h.1, h.2⟩
      · exact visitFile_inv cfg fs p m _ ⟨h.1, h.2⟩
  | dir p cs =>
    rw [walkE]
    dsimp only
    split
    · exact h
    · split
      · exact ⟨h.1, h.2⟩
      · split
        · exact ⟨h.1, h.2⟩
        · exact walkL_inv cfg fs cs _ ⟨h.1, h.2⟩

theorem walkL_inv (cfg : ScanConfig) (fs : FSEntry) (l : FSList) (a : WalkAcc)
    (h : scanInv cfg fs a) : scanInv cfg fs (walkL cfg fs l a) := by
  cases l with
  | nil => rw [walkL]; exact h
  | cons e rest =>
    rw [walkL]
    exact walkL_inv cfg fs rest _ (walkE_inv cfg fs e a h)
end

theorem scan_inv (cfg : ScanConfig) (fs : FSEntry) (w : String → Nat) :
    (∀ q, q ∈ (processChangesModel cfg fs w).deleted ↔
      (q ∈ (processChangesModel cfg fs w).scanned ∧ orphanDeletable cfg fs q = true)) ∧
    (processChangesModel cfg fs w).warnings = (processChangesModel cfg fs w).deleted := by
  have hfw := processChanges_fields cfg fs w
  have h := walkE_inv cfg fs fs (initAcc w) (by constructor <;> simp [initAcc])
  constructor
  · intro q
    rw [hfw.2.2.2.1, hfw.2.2.2.2.2.1]
    exact h.1 q
  · rw [hfw.2.2.2.2.1, hfw.2.2.2.1]
    exact h.2

theorem scan_abort_in_errs (cfg : ScanConfig) (fs : FSEntry) (w : String → Nat)
    (e : GoError) (h : (walkE cfg fs fs (initAcc w)).aborted = some e) :
    e ∈ (processChangesModel cfg fs w).errs := by
  unfold processChangesModel
  dsimp only
  split
  · rename_i e1 heq
    rw [h] at heq
    cases heq
    simp
  · rename_i heq
    rw [h] at heq
    cases heq

theorem orphanDeletable_keep (cfg : ScanConfig) (fs : FSEntry) (q : String)
    (hkeep : cfg.keepOrphanedFiles = true) : orphanDeletable cfg fs q = false := by
  unfold orphanDeletable
  simp [hkeep]

theorem scan_keep_no_delete (cfg : ScanConfig) (fs : FSEntry) (w : String → Nat)
    (hkeep : cfg.keepOrphanedFiles = true) :
    (processChangesModel cfg fs w).deleted = [] := by
  rw [List.eq_nil_iff_forall_not_mem]
  intro q hq
  have h := ((scan_inv cfg fs w).1 q).mp hq
  rw [orphanDeletable_keep cfg fs q hkeep] at h
  exact absurd h.2 (by simp)

theorem visitFile_orphan_removed (cfg : ScanConfig) (fs : FSEntry) (p : String) (m : Nat)
    (a : WalkAcc) (hdel : orphanDeletable cfg fs p = true) :
    (visitFile cfg fs p m a).deleted = a.deleted ++ [p] ∧
    (visitFile cfg fs p m a).warnings = a.warnings ++ [p] ∧
    (visitFile cfg fs p m a).errs = a.errs ∧
    (visitFile cfg fs p m a).aborted = a.aborted := by
  have hab : orphanAborts cfg fs p = false := by
    unfold orphanDeletable at hdel
    unfold orphanAborts
    simp_all
  have hgo : (!cfg.keepOrphanedFiles && strEnds p "_templ.go") = true := by
    unfold orphanDeletable at hdel
    simp_all
  refine ⟨?_, ?_, ?_, ?_⟩
  · rw [visitFile_deleted, if_pos hdel]
  · rw [visitFile_warnings, if_pos hdel]
  · rw [visitFile_errs]
    rw [if_neg]
    simp [hgo]
  · rw [visitFile_aborted, if_neg]
    simp [hab]

theorem visitFile_orphan_remove_failed (cfg : ScanConfig) (fs : FSEntry) (p : String)
    (m : Nat) (a : WalkAcc) (habort : orphanAborts cfg fs p = true) :
    (visitFile cfg fs p m a).aborted = some (.msg "failed to remove file") ∧
    (visitFile cfg fs p m a).deleted = a.deleted ∧
    (visitFile cfg fs p m a).warnings = a.warnings ∧
    (visitFile cfg fs p m a).errs = a.errs := by
  have hdel : orphanDeletable cfg fs p = false := by
    unfold orphanAborts at habort
    unfold orphanDeletable
    simp_all
  have hgo : (!cfg.keepOrphanedFiles && strEnds p "_templ.go") = true := by
    unfold orphanAborts at habort
    simp_all
  refine ⟨?_, ?_, ?_, ?_⟩
  · rw [visitFile_aborted, if_pos habort]
  · rw [visitFile_deleted, if_neg]
    simp [hdel]
  · rw [visitFile_warnings, if_neg]
    simp [hdel]
  · rw [visitFile_errs]
    rw [if_neg]
    simp [hgo]

theorem loopIter_after_first (cfg : LoopConfig) (s : LoopState) (sc : ScanSummary)
    (h : s.firstRunComplete = true) :
    (loopIter cfg s sc).1.events.count LoopEvent.proxyStart =
      s.events.count LoopEvent.proxyStart ∧
    (loopIter cfg s sc).1.events.count LoopEvent.openURL =
      s.events.count LoopEvent.openURL ∧
    (loopIter cfg s sc).1.firstRunComplete = true := by
  unfold loopIter loopIter.loopTail changedEvents
  repeat' split
  all_goals simp_all [List.count_append]

theorem runLoop_after_first (cfg : LoopConfig) (scans : List ScanSummary) (s : LoopState)
    (h : s.firstRunComplete = true) :
    (runLoop cfg scans s).1.events.count LoopEvent.proxyStart =
      s.events.count LoopEvent.proxyStart ∧
    (runLoop cfg scans s).1.events.count LoopEvent.openURL =
      s.events.count LoopEvent.openURL := by
  induction scans generalizing s with
  | nil =>
    rw [runLoop]
    split
    · exact ⟨rfl, rfl⟩
    · exact ⟨rfl, rfl⟩
  | cons sc rest ih =>
    rw [runLoop]
    split
    · have hit := loopIter_after_first cfg s sc h
      split
      · rename_i s1 r heq
        have h1 : (loopIter cfg s sc).1 = s1 := by rw [heq]
        rw [← h1]
        exact ⟨hit.1, hit.2.1⟩
      · rename_i s1 heq
        have h1 : (loopIter cfg s sc).1 = s1 := by rw [heq]
        have hr := ih s1 (h1 ▸ hit.2.2)
        rw [hr.1, hr.2, ← h1]
        exact ⟨hit.1, hit.2.1⟩
    · exact ⟨rfl, rfl⟩

theorem loopIter_first (cfg : LoopConfig) (s : LoopState) (sc : ScanSummary)
    (h : s.firstRunComplete = false) :
    (loopIter cfg s sc).1.events.count LoopEvent.proxyStart =
      s.events.count LoopEvent.proxyStart +
        (if fireCondHead cfg sc then 1 else 0) ∧
    (loopIter cfg s sc).1.events.count LoopEvent.openURL =
      s.events.count LoopEvent.openURL +
        (if fireCondHead cfg sc then 1 else 0) ∧
    ((loopIter cfg s sc).2 = none → (loopIter cfg s sc).1.firstRunComplete = true) := by
  unfold loopIter loopIter.loopTail changedEvents fireCondHead
  repeat' split
  all_goals simp_all [List.count_append]

theorem runCmd_proxy_count (cfg : LoopConfig) (scans : List ScanSummary) :
    (runCmdModel cfg scans).1.events.count LoopEvent.proxyStart =
      (if fireCond cfg scans then 1 else 0) ∧
    (runCmdModel cfg scans).1.events.count LoopEvent.openURL =
      (if fireCond cfg scans then 1 else 0) := by
  unfold runCmdModel
  cases scans with
  | nil =>
    rw [runLoop]
    simp only [fireCond]
    split
    all_goals simp [initLoopState]
  | cons sc rest =>
    rw [runLoop]
    have hfc : (!initLoopState.firstRunComplete || cfg.watch) = true := by
      simp [initLoopState]
    rw [if_pos hfc]
    have hit := loopIter_first cfg initLoopState sc (by simp [initLoopState])
    have hcount0 : initLoopState.events.count LoopEvent.proxyStart = 0 := by
      simp [initLoopState]
    have hcount1 : initLoopState.events.count LoopEvent.openURL = 0 := by
      simp [initLoopState]
    rw [hcount0] at hit
    rw [hcount1] at hit
    simp only [fireCond]
    split
    · rename_i s1 r heq
      have h1 : (loopIter cfg initLoopState sc).1 = s1 := by rw [heq]
      rw [← h1]
      exact ⟨by rw [hit.1]; omega, by rw [hit.2.1]; omega⟩
    · rename_i s1 heq
      have h1 : (loopIter cfg initLoopState sc).1 = s1 := by rw [heq]
      have h2 : (loopIter cfg initLoopState sc).2 = none := by rw [heq]
      have hfr : s1.firstRunComplete = true := h1 ▸ hit.2.2 h2
      have hr := runLoop_after_first cfg rest s1 hfr
      rw [hr.1, hr.2, ← h1, hit.1, hit.2.1]
      omega

theorem backoff_next_facts (b : BackOff) (h : BackOffWF b) :
    500 ≤ b.nextBackOff.1 ∧ b.nextBackOff.1 ≤ 3000 ∧
    b.nextBackOff.1 ≤ b.nextBackOff.2.nextBackOff.1 ∧
    BackOffWF b.nextBackOff.2 := by
  unfold BackOffWF BackOff.nextBackOff at *
  dsimp only at *
  omega

theorem backoff_reset_next (b : BackOff) :
    b.reset.nextBackOff.1 = b.initialInterval := rfl

theorem backoff_reset_wf (b : BackOff) (h : BackOffWF b) : BackOffWF b.reset := by
  unfold BackOffWF BackOff.reset at *
  dsimp only at *
  omega

theorem initialBackOff_wf : BackOffWF initialBackOff := by
  unfold BackOffWF
  decide

theorem loopIter_sleep_zero (cfg : LoopConfig) (s : LoopState) (sc : ScanSummary)
    (h : s.firstRunComplete = true) (hchanges : sc.changesFound = 0)
    (herrs : sc.errs = []) :
    (loopIter cfg s sc).1.bo = s.bo.nextBackOff.2 ∧
    (loopIter cfg s sc).1.events = s.events ++ [.slept s.bo.nextBackOff.1] ∧
    (loopIter cfg s sc).2 = none := by
  unfold loopIter loopIter.loopTail changedEvents
  rw [herrs]
  simp [h, hchanges]

theorem loopIter_sleep_changed (cfg : LoopConfig) (s : LoopState) (sc : ScanSummary)
    (h : s.firstRunComplete = true) (hchanges : 0 < sc.changesFound)
    (herrs : sc.errs = []) :
    (loopIter cfg s sc).1.bo = s.bo.reset.nextBackOff.2 ∧
    (loopIter cfg s sc).1.events.getLast? = some (.slept s.bo.initialInterval) ∧
    (loopIter cfg s sc).2 = none := by
  unfold loopIter loopIter.loopTail
  rw [herrs]
  simp [h, hchanges, List.getLast?_concat]
  rfl

theorem loopIter_scansRun (cfg : LoopConfig) (s : LoopState) (sc : ScanSummary) :
    (loopIter cfg s sc).1.scansRun = s.scansRun + 1 := by
  unfold loopIter loopIter.loopTail changedEvents
  repeat' split
  all_goals try simp_all
  all_goals repeat' split
  all_goals simp_all

theorem loopIter_no_sleep_first (cfg : LoopConfig) (s : LoopState) (sc : ScanSummary)
    (h : s.firstRunComplete = false) (d : Nat) (hnos : LoopEvent.slept d ∉ s.events) :
    LoopEvent.slept d ∉ (loopIter cfg s sc).1.events := by
  unfold loopIter loopIter.loopTail changedEvents
  repeat' split
  all_goals try simp_all
  all_goals repeat' split
  all_goals simp_all

theorem runLoop_nonwatch (cfg : LoopConfig) (sc : ScanSummary) (rest : List ScanSummary)
    (hw : cfg.watch = false) :
    (runLoop cfg (sc :: rest) initLoopState).1.scansRun = 1 ∧
    (∀ d, LoopEvent.slept d ∉ (runLoop cfg (sc :: rest) initLoopState).1.events) ∧
    (runLoop cfg (sc :: rest) initLoopState).2.isSome = true := by
  rw [runLoop]
  rw [if_pos (by simp [initLoopState])]
  split
  · rename_i s1 r heq
    have h1 : (loopIter cfg initLoopState sc).1 = s1 := by rw [heq]
    refine ⟨?_, ?_, rfl⟩
    · rw [← h1, loopIter_scansRun]
      rfl
    · intro d
      rw [← h1]
      exact loopIter_no_sleep_first cfg initLoopState sc rfl d (by simp [initLoopState])
  · rename_i s1 heq
    have h1 : (loopIter cfg initLoopState sc).1 = s1 := by rw [heq]
    have h2 : (loopIter cfg initLoopState sc).2 = none := by rw [heq]
    have hfr : s1.firstRunComplete = true := by
      rw [← h1]
      exact (loopIter_first cfg initLoopState sc (by simp [initLoopState])).2.2 h2
    rw [runLoop.eq_def]
    dsimp only
    rw [if_neg (by simp [hfr, hw])]
    refine ⟨?_, ?_, rfl⟩
    · rw [← h1, loopIter_scansRun]
      rfl
    · intro d
      rw [← h1]
      exact loopIter_no_sleep_first cfg initLoopState sc rfl d (by simp [initLoopState])

theorem runModel_cancel_first (cfg : LoopConfig) (sc : ScanSummary)
    (rest : List ScanSummary) (h : sc.errs.head? = some GoError.canceled) :
    (runModel cfg (sc :: rest)).2 = some none := by
  have h2 : (loopIter cfg initLoopState sc).2 = some (some GoError.canceled) := by
    cases herrs : sc.errs with
    | nil => rw [herrs] at h; cases h
    | cons e tl =>
      rw [herrs] at h
      simp at h
      unfold loopIter
      rw [herrs]
      simp [h]
  unfold runModel runCmdModel
  rw [runLoop]
  rw [if_pos (by simp [initLoopState])]
  split
  · rename_i s1 r heq
    have : (loopIter cfg initLoopState sc).2 = some r := by rw [heq]
    rw [h2] at this
    cases this
    rfl
  · rename_i s1 heq
    have : (loopIter cfg initLoopState sc).2 = none := by rw [heq]
    rw [h2] at this
    cases this

theorem countP_set_aux (pred : Phase → Bool) :
    ∀ (l : List Phase) (i : Nat) (v x : Phase), l.get? i = some x →
      (l.set i v).countP pred + (if pred x then 1 else 0) =
        l.countP pred + (if pred v then 1 else 0) := by
  intro l
  induction l with
  | nil => intro i v x h; cases h
  | cons a as ih =>
    intro i v x h
    cases i with
    | zero =>
      simp only [List.get?] at h
      cases h
      simp [List.set, List.countP_cons]
      omega
    | succ i =>
      simp only [List.get?] at h
      simp [List.set, List.countP_cons]
      have := ih i v x h
      omega

theorem countP_imp_le (p q : Phase → Bool) (h : ∀ a, p a = true → q a = true) :
    ∀ l : List Phase, l.countP p ≤ l.countP q := by
  intro l
  induction l with
  | nil => simp
  | cons a as ih =>
    rw [List.countP_cons, List.countP_cons]
    by_cases hp : p a = true
    · rw [h a hp]
      simp [hp]
      omega
    · simp [hp]
      split
      all_goals omega

theorem poolInv_reachable (W n : Nat) (s : PoolState) (h : PoolReachable W n s) :
    poolInv W s := by
  induction h with
  | init =>
    constructor
    · unfold semCount PoolState.init
      rw [List.countP_eq_zero.mpr]
      · omega
      · intro a ha
        rw [List.eq_of_mem_replicate ha]
        decide
    · intro hc
      cases hc
  | @step s1 s2 hr hstep ih =>
    cases hstep with
    | dispatch i hwalk hsc hget hsem =>
      constructor
      · unfold semCount at *
        have hIH := ih.1
        unfold semCount at hIH
        have := countP_set_aux holdsToken s1.phases i Phase.acquired Phase.pending hget
        simp only [holdsToken] at this
        simp at this ⊢
        omega
      · intro hc
        simp at hc
        rw [hc] at hsc
        cases hsc
    | start i hget =>
      constructor
      · unfold semCount at *
        have hIH := ih.1
        unfold semCount at hIH
        have := countP_set_aux holdsToken s1.phases i Phase.running Phase.acquired hget
        simp only [holdsToken] at this
        simp at this ⊢
        omega
      · intro hc
        simp at hc
        have h2 := (ih.2 hc).2 Phase.acquired (List.get?_mem hget)
        simp at h2
    | finish i hget =>
      constructor
      · unfold semCount at *
        have hIH := ih.1
        unfold semCount at hIH
        have := countP_set_aux holdsToken s1.phases i Phase.done Phase.running hget
        simp only [holdsToken] at this
        simp at this ⊢
        omega
      · intro hc
        simp at hc
        have h2 := (ih.2 hc).2 Phase.running (List.get?_mem hget)
        simp at h2
    | release i hget =>
      constructor
      · unfold semCount at *
        have hIH := ih.1
        unfold semCount at hIH
        have := countP_set_aux holdsToken s1.phases i Phase.released Phase.done hget
        simp only [holdsToken] at this
        simp at this ⊢
        omega
      · intro hc
        simp at hc
        have h2 := (ih.2 hc).2 Phase.done (List.get?_mem hget)
        simp at h2
    | endWalk =>
      constructor
      · exact ih.1
      · intro hc
        simp at hc
        exact ⟨rfl, (ih.2 hc).2⟩
    | complete hwalk hall =>
      constructor
      · exact ih.1
      · intro hc
        exact ⟨by simp [hwalk], hall⟩

theorem runningCount_le_semCount (s : PoolState) : runningCount s ≤ semCount s := by
  unfold runningCount semCount
  apply countP_imp_le
  intro a ha
  unfold isRunning at ha
  unfold holdsToken
  simp at ha
  simp [ha]

theorem scan_cancel_at_start (cfg : ScanConfig) (fs : FSEntry) (w : String → Nat)
    (h : cfg.cancelAt = some 0) :
    (processChangesModel cfg fs w).errs = [.canceled] ∧
    (processChangesModel cfg fs w).changes = 0 := by
  have hw : walkE cfg fs fs (initAcc w) =
      { initAcc w with counter := 1, aborted := some .canceled } := by
    cases fs with
    | file p m =>
      rw [walkE]
      simp [initAcc, cancelHit, h]
    | dir p cs =>
      rw [walkE]
      simp [initAcc, cancelHit, h]
  unfold processChangesModel
  dsimp only
  rw [hw]
  simp [initAcc]

/-- C1 counterexample: the claim says a declared dependency version strictly
less than the running version passes the gate.  At the concrete manifest
requiring templ v0.1.0 under a running v0.2.0 (declared strictly less than
running), `checkTemplVersion` does not pass: it fails with the
"consider running go get -u to upgrade" error (`failUpgradeLibrary`). -/
theorem c1_counterexample :
    semverCompare ⟨0, 1, 0⟩ ⟨0, 2, 0⟩ = .lt ∧
    checkManifest ⟨0, 2, 0⟩ ⟨"example.com/app", [⟨templModulePath, ⟨0, 1, 0⟩⟩]⟩ =
      some GateOutcome.failUpgradeLibrary ∧
    checkManifest ⟨0, 2, 0⟩ ⟨"example.com/app", [⟨templModulePath, ⟨0, 1, 0⟩⟩]⟩ ≠
      some GateOutcome.pass := by
  decide

/-- C1 (amended): for every manifest that declares a dependency on templ,
a declared version strictly LESS than the running version fails the gate
with the "upgrade the library dependency" error (`go get -u`), strictly
greater fails with the "upgrade the CLI" error, equal passes, and a
manifest whose own module path is templ's passes unconditionally. -/
theorem c1_version_gate (running : SemVer) (mf : ModFile) (v : SemVer)
    (hm : mf.modulePath ≠ templModulePath)
    (hv : findTemplRequire mf.require = some v) :
    (semverCompare v running = .lt →
      checkManifest running mf = some GateOutcome.failUpgradeLibrary) ∧
    (semverCompare v running = .gt →
      checkManifest running mf = some GateOutcome.failUpgradeCLI) ∧
    (semverCompare v running = .eq → checkManifest running mf = some GateOutcome.pass) ∧
    (∀ (running2 : SemVer) (mf2 : ModFile), mf2.modulePath = templModulePath →
      checkManifest running2 mf2 = some GateOutcome.pass) := by
  refine ⟨?_, ?_, ?_, ?_⟩
  · intro h
    unfold checkManifest
    simp [hm, hv, h]
  · intro h
    unfold checkManifest
    simp [hm, hv, h]
  · intro h
    unfold checkManifest
    simp [hm, hv, h]
  · intro running2 mf2 h
    unfold checkManifest
    rw [if_pos h]

/-- C1 witness: the amended theorem applied at a manifest requiring the
exact running version, and at a self-referential manifest. -/
theorem c1_witness :
    checkManifest ⟨0, 2, 513⟩ ⟨"example.com/app", [⟨templModulePath, ⟨0, 2, 513⟩⟩]⟩ =
      some GateOutcome.pass ∧
    checkManifest ⟨0, 2, 513⟩ ⟨templModulePath, []⟩ = some GateOutcome.pass := by
  have h := c1_version_gate ⟨0, 2, 513⟩ ⟨"example.com/app", [⟨templModulePath, ⟨0, 2, 513⟩⟩]⟩
    ⟨0, 2, 513⟩ (by decide) (by decide)
  exact ⟨h.2.2.1 (by decide), h.2.2.2 ⟨0, 2, 513⟩ ⟨templModulePath, []⟩ rfl⟩

/-- C2 (code evaluation at the failing input): `shouldSkipDir` compares the
full walked path against "vendor"/"node_modules", and `runCmd` always makes
the walk root absolute, so the absolute directory "/app/vendor" is NOT
skipped: the file beneath it is scanned and compiled, while the
underscore-named sibling directory is skipped as the claim expects.  The
claim (and spec) say no file beneath a `vendor` directory is ever
scanned. -/
theorem c2_vendor_not_skipped :
    shouldSkipDir "/app/vendor" = false ∧
    shouldSkipDir "/app/_skip" = true ∧
    (processChangesModel examplePlainScan exampleVendorTree (fun _ => 0)).scanned =
      ["/app/vendor/a.templ"] ∧
    (processChangesModel examplePlainScan exampleVendorTree (fun _ => 0)).compiled =
      ["/app/vendor/a.templ"] ∧
    (processChangesModel examplePlainScan exampleVendorTree (fun _ => 0)).changes = 1 := by
  decide

/-- C3 (code evaluation at the failing input): when the read-back of the
generated artifact fails during sourcemap visualisation, the source's
`goErr` branch returns `templErr` — which is necessarily nil there — so
the pipeline reports SUCCESS, writes no visualisation file, and leaves the
artifact on disk, contradicting the claim that either read-back failure is
terminal.  For contrast, a failing read-back of the original source IS
terminal, with the artifact remaining on disk as claimed. -/
theorem c3_goread_failure_swallowed :
    (generateModel false "/app/a.templ" true exampleGoReadFails []).2 = .ok [] ∧
    fmHas (generateModel false "/app/a.templ" true exampleGoReadFails []).1
      "/app/a_templ.go" = true ∧
    fmHas (generateModel false "/app/a.templ" true exampleGoReadFails []).1
      "/app/a_templ_sourcemap.html" = false ∧
    (generateModel false "/app/a.templ" true exampleTemplReadFails []).2 =
      .error (.msg "open templ: no such file") ∧
    fmHas (generateModel false "/app/a.templ" true exampleTemplReadFails []).1
      "/app/a_templ.go" = true := by
  refine ⟨rfl, rfl, rfl, rfl, rfl⟩

/-- C4 counterexample: with a proxy configured in watch mode, a run whose
first scan finds no changes and whose second scan finds changes never
starts the proxy listener (`proxyStart` count 0), although the second scan
is processed (its reload SSE is sent).  The claim says the listener starts
on the first scan that reports changed files. -/
theorem c4_counterexample :
    (runCmdModel ⟨true, true, false⟩ [⟨0, []⟩, ⟨1, []⟩]).1.events.count
      LoopEvent.proxyStart = 0 ∧
    LoopEvent.sseReload ∈ (runCmdModel ⟨true, true, false⟩ [⟨0, []⟩, ⟨1, []⟩]).1.events := by
  decide

/-- C4 (amended): the proxy listener and browser-open tasks fire exactly
when a proxy is configured and the VERY FIRST scan reports changed files
without aborting the run (`fireCond`); in particular each fires at most
once across the process lifetime, never before a scan has found changes,
never on later scans, and never when no proxy is configured. -/
theorem c4_proxy_once (cfg : LoopConfig) (scans : List ScanSummary) :
    (runCmdModel cfg scans).1.events.count LoopEvent.proxyStart =
      (if fireCond cfg scans then 1 else 0) ∧
    (runCmdModel cfg scans).1.events.count LoopEvent.openURL =
      (if fireCond cfg scans then 1 else 0) ∧
    (runCmdModel cfg scans).1.events.count LoopEvent.proxyStart ≤ 1 ∧
    (cfg.proxyConfigured = false → (runCmdModel cfg scans).1.events.count
      LoopEvent.proxyStart = 0) := by
  have h := runCmd_proxy_count cfg scans
  refine ⟨h.1, h.2, ?_, ?_⟩
  · rw [h.1]
    split
    all_goals omega
  · intro hp
    rw [h.1]
    cases scans with
    | nil => simp [fireCond]
    | cons sc rest => simp [fireCond, fireCondHead, hp]

/-- C4 witness: the amended theorem applied to a one-scan changed run with
a proxy, and to the same run without a proxy. -/
theorem c4_witness :
    (runCmdModel ⟨true, true, false⟩ [⟨1, []⟩]).1.events.count LoopEvent.proxyStart ≤ 1 ∧
    (runCmdModel ⟨true, false, false⟩ [⟨1, []⟩]).1.events.count LoopEvent.proxyStart = 0 :=
  ⟨(c4_proxy_once ⟨true, true, false⟩ [⟨1, []⟩]).2.2.1,
    (c4_proxy_once ⟨true, false, false⟩ [⟨1, []⟩]).2.2.2 rfl⟩

theorem orphanDeletable_iff (cfg : ScanConfig) (fs : FSEntry) (q : String) :
    orphanDeletable cfg fs q = true ↔
      (strEnds q "_templ.go" = true ∧ cfg.keepOrphanedFiles = false ∧
        existsInE fs (strTrimSuffix q "_templ.go" ++ ".templ") = false ∧
        cfg.removeFails q = false) := by
  unfold orphanDeletable
  simp only [Bool.and_eq_true, Bool.not_eq_true']
  tauto

/-- C5 (confirmed): during a scan with retain-orphans unset, a generated
artifact is deleted iff it was encountered, its source-suffix sibling does
not exist in the snapshot, and its removal does not fail; with
retain-orphans set nothing is ever deleted; every successful deletion is
reported as a warning (the warning list IS the deletion list) and adds no
error; a removal failure aborts the walk with the "failed to remove file"
error, deletes nothing, and that abort error surfaces among the scan's
errors. -/
theorem c5_orphan_reaper :
    (∀ (cfg : ScanConfig) (fs : FSEntry) (w : String → Nat) (q : String),
      q ∈ (processChangesModel cfg fs w).deleted ↔
        (q ∈ (processChangesModel cfg fs w).scanned ∧
          strEnds q "_templ.go" = true ∧ cfg.keepOrphanedFiles = false ∧
          existsInE fs (strTrimSuffix q "_templ.go" ++ ".templ") = false ∧
          cfg.removeFails q = false)) ∧
    (∀ (cfg : ScanConfig) (fs : FSEntry) (w : String → Nat),
      cfg.keepOrphanedFiles = true → (processChangesModel cfg fs w).deleted = []) ∧
    (∀ (cfg : ScanConfig) (fs : FSEntry) (w : String → Nat),
      (processChangesModel cfg fs w).warnings = (processChangesModel cfg fs w).deleted) ∧
    (∀ (cfg : ScanConfig) (fs : FSEntry) (p : String) (m : Nat) (a : WalkAcc),
      orphanDeletable cfg fs p = true →
        (visitFile cfg fs p m a).deleted = a.deleted ++ [p] ∧
        (visitFile cfg fs p m a).warnings = a.warnings ++ [p] ∧
        (visitFile cfg fs p m a).errs = a.errs ∧
        (visitFile cfg fs p m a).aborted = a.aborted) ∧
    (∀ (cfg : ScanConfig) (fs : FSEntry) (p : String) (m : Nat) (a : WalkAcc),
      orphanAborts cfg fs p = true →
        (visitFile cfg fs p m a).aborted = some (.msg "failed to remove file") ∧
        (visitFile cfg fs p m a).deleted = a.deleted) ∧
    (∀ (cfg : ScanConfig) (fs : FSEntry) (w : String → Nat) (e : GoError),
      (walkE cfg fs fs (initAcc w)).aborted = some e →
        e ∈ (processChangesModel cfg fs w).errs) := by
  refine ⟨?_, ?_, ?_, ?_, ?_, ?_⟩
  · intro cfg fs w q
    rw [(scan_inv cfg fs w).1 q, orphanDeletable_iff]
  · exact scan_keep_no_delete
  · intro cfg fs w
    exact (scan_inv cfg fs w).2
  · intro cfg fs p m a h
    exact visitFile_orphan_removed cfg fs p m a h
  · intro cfg fs p m a h
    have := visitFile_orphan_remove_failed cfg fs p m a h
    exact ⟨this.1, this.2.1⟩
  · exact scan_abort_in_errs

/-- C5 witness: the orphan branch applied to a concrete orphaned artifact,
and the retain-orphans case applied to the same snapshot. -/
theorem c5_witness :
    (visitFile examplePlainScan (.dir "/app" (.cons (.file "/app/x_templ.go" 1) .nil))
      "/app/x_templ.go" 1 (initAcc fun _ => 0)).deleted = [] ++ ["/app/x_templ.go"] ∧
    (processChangesModel
      { examplePlainScan with keepOrphanedFiles := true }
      (.dir "/app" (.cons (.file "/app/x_templ.go" 1) .nil)) (fun _ => 0)).deleted = [] := by
  constructor
  · exact ((c5_orphan_reaper.2.2.2.1 examplePlainScan
      (.dir "/app" (.cons (.file "/app/x_templ.go" 1) .nil))
      "/app/x_templ.go" 1 (initAcc fun _ => 0)) (by decide)).1
  · exact c5_orphan_reaper.2.1 _ _ (fun _ => 0) rfl

/-- C6 (confirmed): a source file whose modification time is not strictly
greater than its recorded time is classified unchanged — no change count,
no dispatch, no watch-state update; a repeated scan over the same snapshot
with the resulting watch state finds zero changed files and dispatches
nothing (idempotence); and every watch-state entry is monotonically
non-decreasing across a scan. -/
theorem c6_change_detector :
    (∀ (cfg : ScanConfig) (fs : FSEntry) (p : String) (m : Nat) (a : WalkAcc),
      m ≤ a.watch p →
        (visitFile cfg fs p m a).changes = a.changes ∧
        (visitFile cfg fs p m a).compiled = a.compiled ∧
        (visitFile cfg fs p m a).watch = a.watch) ∧
    (∀ (cfg : ScanConfig) (fs : FSEntry) (w : String → Nat),
      (processChangesModel cfg fs (processChangesModel cfg fs w).watch).changes = 0 ∧
      (processChangesModel cfg fs (processChangesModel cfg fs w).watch).compiled = [] ∧
      (processChangesModel cfg fs (processChangesModel cfg fs w).watch).watch =
        (processChangesModel cfg fs w).watch) ∧
    (∀ (cfg : ScanConfig) (fs : FSEntry) (w : String → Nat) (f : String),
      w f ≤ (processChangesModel cfg fs w).watch f) := by
  refine ⟨?_, ?_, scan_watch_mono⟩
  · intro cfg fs p m a h
    exact visitFile_state_id cfg fs p m a (templUpdates_false_of_ge cfg p m a h)
  · intro cfg fs w
    exact scan_idem cfg fs w

/-- C6 witness: the unchanged-classification part applied to a concrete
file whose modification time 3 is below its recorded time 5. -/
theorem c6_witness :
    (visitFile examplePlainScan exampleVendorTree "/app/x.templ" 3
      (initAcc fun _ => 5)).changes = (initAcc fun _ => (5 : Nat)).changes := by
  exact (c6_change_detector.1 examplePlainScan exampleVendorTree "/app/x.templ" 3
    (initAcc fun _ => 5) (by decide)).1

/-- C7 (confirmed): for every configured worker count `W ≥ 1`, every number
`n` of changed files, and every state reachable along any interleaving of
the semaphore/wait-group discipline, at most `W` compilations execute
concurrently, and once `wg.Wait()` has returned (the scan completed) no
dispatched compilation is still acquired, running, or unreleased. -/
theorem c7_worker_pool (W n : Nat) (s : PoolState) (hW : 1 ≤ W)
    (h : PoolReachable W n s) :
    runningCount s ≤ W ∧
    (s.scanComplete = true → ∀ p ∈ s.phases,
      p ≠ Phase.acquired ∧ p ≠ Phase.running ∧ p ≠ Phase.done) := by
  have hi := poolInv_reachable W n s h
  refine ⟨Nat.le_trans (runningCount_le_semCount s) hi.1, ?_⟩
  intro hc p hp
  rcases (hi.2 hc).2 p hp with h1 | h1
  · simp [h1]
  · simp [h1]

/-- C7 witness: the bound applied to a concrete reachable state of a
2-task scan under worker count 1, after dispatching and starting the first
task. -/
theorem c7_witness :
    runningCount
      { phases := ((List.replicate 2 Phase.pending).set 0 Phase.acquired).set 0 Phase.running,
        walkFinished := false, scanComplete := false } ≤ 1 := by
  have r1 : PoolReachable 1 2
      { phases := (List.replicate 2 Phase.pending).set 0 Phase.acquired,
        walkFinished := false, scanComplete := false } :=
    PoolReachable.step PoolReachable.init
      (PoolStep.dispatch (PoolState.init 2) 0 rfl rfl (by decide) (by decide))
  have r2 : PoolReachable 1 2
      { phases := ((List.replicate 2 Phase.pending).set 0 Phase.acquired).set 0 Phase.running,
        walkFinished := false, scanComplete := false } :=
    PoolReachable.step r1 (PoolStep.start _ 0 (by decide))
  exact (c7_worker_pool 1 2 _ (by decide) r2).1

/-- C8 (confirmed, scheduler spec-modelled): a zero-change scan consulting
a scheduler whose current interval is the initial interval sleeps exactly
the initial interval (500 ms for the configured scheduler); consecutive
consultations without reset produce delays that are non-decreasing and
bounded by 500 ≤ d ≤ 3000 ms, with well-formedness preserved; a
zero-change iteration advances the scheduler without reset; an iteration
with changed files resets first, so its delay is exactly the initial
interval; and in non-watch mode the loop runs exactly one scan and never
sleeps, so the scheduler is never consulted. -/
theorem c8_backoff_scheduler :
    (∀ (cfg : LoopConfig) (s : LoopState) (sc : ScanSummary),
      s.firstRunComplete = true → s.bo.currentInterval = s.bo.initialInterval →
      sc.changesFound = 0 → sc.errs = [] →
      (loopIter cfg s sc).1.events = s.events ++ [.slept s.bo.initialInterval]) ∧
    (∀ b : BackOff, BackOffWF b →
      500 ≤ b.nextBackOff.1 ∧ b.nextBackOff.1 ≤ 3000 ∧
      b.nextBackOff.1 ≤ b.nextBackOff.2.nextBackOff.1 ∧ BackOffWF b.nextBackOff.2 ∧
      BackOffWF b.reset) ∧
    BackOffWF initialBackOff ∧
    (∀ (cfg : LoopConfig) (s : LoopState) (sc : ScanSummary),
      s.firstRunComplete = true → sc.changesFound = 0 → sc.errs = [] →
      (loopIter cfg s sc).1.bo = s.bo.nextBackOff.2 ∧
      (loopIter cfg s sc).1.events = s.events ++ [.slept s.bo.nextBackOff.1]) ∧
    (∀ (cfg : LoopConfig) (s : LoopState) (sc : ScanSummary),
      s.firstRunComplete = true → 0 < sc.changesFound → sc.errs = [] →
      (loopIter cfg s sc).1.events.getLast? = some (.slept s.bo.initialInterval) ∧
      (loopIter cfg s sc).1.bo = s.bo.reset.nextBackOff.2) ∧
    (∀ (cfg : LoopConfig) (sc : ScanSummary) (rest : List ScanSummary),
      cfg.watch = false →
      (runLoop cfg (sc :: rest) initLoopState).1.scansRun = 1 ∧
      (∀ d, LoopEvent.slept d ∉ (runLoop cfg (sc :: rest) initLoopState).1.events) ∧
      (runLoop cfg (sc :: rest) initLoopState).2.isSome = true) := by
  refine ⟨?_, ?_, initialBackOff_wf, ?_, ?_, ?_⟩
  · intro cfg s sc h1 h2 h3 h4
    have h := loopIter_sleep_zero cfg s sc h1 h3 h4
    rw [h.2.1]
    have : s.bo.nextBackOff.1 = s.bo.initialInterval := by
      unfold BackOff.nextBackOff
      dsimp only
      exact h2
    rw [this]
  · intro b hb
    have h := backoff_next_facts b hb
    exact ⟨h.1, h.2.1, h.2.2.1, h.2.2.2, backoff_reset_wf b hb⟩
  · intro cfg s sc h1 h2 h3
    have h := loopIter_sleep_zero cfg s sc h1 h2 h3
    exact ⟨h.1, h.2.1⟩
  · intro cfg s sc h1 h2 h3
    have h := loopIter_sleep_changed cfg s sc h1 h2 h3
    exact ⟨h.2.1, h.1⟩
  · intro cfg sc rest hw
    exact runLoop_nonwatch cfg sc rest hw

/-- C8 witness: the zero-change-after-reset part applied to the freshly
configured scheduler, and the non-watch part applied to a one-scan run. -/
theorem c8_witness :
    (loopIter ⟨true, false, false⟩
      { firstRunComplete := true, bo := initialBackOff, events := [], scansRun := 1 }
      ⟨0, []⟩).1.events = [] ++ [.slept 500] ∧
    (runLoop ⟨false, false, false⟩ [⟨1, []⟩] initLoopState).1.scansRun = 1 := by
  constructor
  · exact c8_backoff_scheduler.1 ⟨true, false, false⟩
      { firstRunComplete := true, bo := initialBackOff, events := [], scansRun := 1 }
      ⟨0, []⟩ rfl rfl rfl rfl
  · exact (c8_backoff_scheduler.2.2.2.2.2 ⟨false, false, false⟩ ⟨1, []⟩ [] rfl).1

/-- C9 counterexample: a non-watch scan in which a per-file compile failure
is collected BEFORE the cancellation error (the walk is cancelled at the
third callback) yields `errs = [parse error, canceled]`; `runCmd` only
tests `errs[0]` for cancellation, so `Run` returns the joined
"failed to process path" error instead of a clean shutdown, although a
context-cancellation error reached the run-loop's outer boundary. -/
theorem c9_counterexample :
    (processChangesModel exampleCancelScan exampleCancelTree (fun _ => 0)).errs =
      [.msg "/app/a.templ parsing error", .canceled] ∧
    (runModel ⟨false, false, false⟩
      [⟨(processChangesModel exampleCancelScan exampleCancelTree (fun _ => 0)).changes,
        (processChangesModel exampleCancelScan exampleCancelTree (fun _ => 0)).errs⟩]).2 =
      some (some (.msg "failed to process path")) := by
  decide

/-- C9 (amended): whenever the FIRST collected error of a scan is the
context-cancellation error — which always holds when cancellation is
raised at traversal start, since the walk aborts before dispatching
anything — the top-level `Run` returns no error (clean shutdown). -/
theorem c9_cancellation (cfg : LoopConfig) (sc : ScanSummary) (rest : List ScanSummary)
    (h : sc.errs.head? = some GoError.canceled) :
    (runModel cfg (sc :: rest)).2 = some none := by
  exact runModel_cancel_first cfg sc rest h

/-- C9 witness: the amended theorem applied to a scan whose only error is
the cancellation error. -/
theorem c9_witness :
    (runModel ⟨false, false, false⟩ [⟨0, [GoError.canceled]⟩]).2 = some none := by
  exact c9_cancellation ⟨false, false, false⟩ ⟨0, [GoError.canceled]⟩ [] rfl

/-- C10 (confirmed): when a changed source file is detected, its new
modification time is recorded in the watch state and it is counted and
dispatched in the same step, for every compile-outcome oracle — so a
compilation failure still leaves the time recorded, the file counted among
the changed files, and its error collected; and a repeated scan with the
resulting watch state dispatches nothing, so a failed file is not retried
until its modification time strictly advances. -/
theorem c10_record_before_dispatch :
    (∀ (cfg : ScanConfig) (fs : FSEntry) (p : String) (m : Nat) (a : WalkAcc),
      (!cfg.keepOrphanedFiles && strEnds p "_templ.go") = false →
      strEnds p ".templ" = true → a.watch p < m →
      (visitFile cfg fs p m a).watch p = m ∧
      (visitFile cfg fs p m a).changes = a.changes + 1 ∧
      (visitFile cfg fs p m a).compiled = a.compiled ++ [p] ∧
      (∀ e, cfg.compileResult p = some e →
        (visitFile cfg fs p m a).errs = a.errs ++ [e])) ∧
    (∀ (cfg : ScanConfig) (fs : FSEntry) (w : String → Nat),
      (processChangesModel cfg fs (processChangesModel cfg fs w).watch).compiled = [] ∧
      (processChangesModel cfg fs (processChangesModel cfg fs w).watch).changes = 0) := by
  constructor
  · intro cfg fs p m a h1 h2 h3
    have hu : templUpdates cfg p m a = true := by
      unfold templUpdates
      simp [h1, h2, h3]
    refine ⟨?_, ?_, ?_, ?_⟩
    · rw [visitFile_watch, if_pos hu]
      simp
    · rw [visitFile_changes, if_pos hu]
    · rw [visitFile_compiled, if_pos hu]
    · intro e he
      rw [visitFile_errs, if_pos ⟨h1, h2, h3⟩, he]
  · intro cfg fs w
    exact ⟨(scan_idem cfg fs w).2.1, (scan_idem cfg fs w).1⟩

/-- C10 witness: the dispatch characterisation applied to a concrete
changed file whose compilation fails with a parse error. -/
theorem c10_witness :
    (visitFile exampleCancelScan exampleCancelTree "/app/a.templ" 1
      (initAcc fun _ => 0)).changes = (initAcc fun _ => (0 : Nat)).changes + 1 ∧
    (visitFile exampleCancelScan exampleCancelTree "/app/a.templ" 1
      (initAcc fun _ => 0)).errs =
      (initAcc fun _ => (0 : Nat)).errs ++ [.msg "/app/a.templ parsing error"] := by
  have h := c10_record_before_dispatch.1 exampleCancelScan exampleCancelTree
    "/app/a.templ" 1 (initAcc fun _ => 0) (by decide) (by decide) (by decide)
  exact ⟨h.2.1, h.2.2.2 _ (by decide)⟩


end TemplGen
